import Mathlib

/-!
Verification development for the FAANG sample-metadata batch-validation engine
(`app/organism_validation.py`, `app/ontology_validator.py`,
`app/breed_species_validator.py`, `app/organism_validator_classes.py`).

Python records and validation documents are nested dictionaries; they are
embedded as the JSON-like type `JValue`.  External collaborators (the Elixir
schema validator, the OLS ontology lookup, the BioSamples accession lookup) and
configuration data fetched over the network (field requirement tiers, ontology
names) are inputs of the embedded functions, mirroring the fact that the Python
code reads them from caches populated from the network.  The module
`constants.py` (MISSING_VALUES, SPECIES_BREED_LINKS, ALLOWED_RELATIONSHIPS,
SKIP_PROPERTIES) is not part of the source tree, so those tables are likewise
parameters of the embedding.
-/

namespace FaangVal

/-- JSON-like values: the shape of Python dicts/lists/strings/None handled by
the validator.  Dicts are association lists with (as in Python) unique keys. -/
inductive JValue where
  | null : JValue
  | str : String → JValue
  | list : List JValue → JValue
  | obj : List (String × JValue) → JValue
  deriving Repr, Inhabited

/-- First value bound to key `k`, as Python dict lookup (keys are unique). -/
def lookupAssoc : List (String × JValue) → String → Option JValue
  | [], _ => none
  | (k, v) :: rest, key => if k = key then some v else lookupAssoc rest key

/-- Python `d.get(k)` (None when `d` is not a dict or the key is absent). -/
def JValue.get? : JValue → String → Option JValue
  | .obj kvs, k => lookupAssoc kvs k
  | _, _ => none

/-- Python `k in d`. -/
def JValue.hasKey (j : JValue) (k : String) : Bool := (j.get? k).isSome

/-- Python `d.get(k, default)`. -/
def JValue.getD (j : JValue) (k : String) (d : JValue) : JValue := (j.get? k).getD d

/-- Assignment into an association list: replace the binding in place if the
key exists, otherwise append it at the end (Python dict assignment). -/
def setAssoc : List (String × JValue) → String → JValue → List (String × JValue)
  | [], key, v => [(key, v)]
  | (k, v0) :: rest, key, v =>
    if k = key then (key, v) :: rest else (k, v0) :: setAssoc rest key v

/-- Python `d[k] = v` (no effect on non-dicts). -/
def JValue.set : JValue → String → JValue → JValue
  | .obj kvs, k, v => .obj (setAssoc kvs k v)
  | j, _, _ => j

/-- Python truthiness of the values that occur in validation documents. -/
def JValue.truthy : JValue → Bool
  | .null => false
  | .str s => !s.isEmpty
  | .list l => !l.isEmpty
  | .obj kvs => !kvs.isEmpty

/-- Python `d.get(k1, {}).get(k2, default)` restricted to string results:
used for reads such as `org.get('organism', {}).get('text', '')`. -/
def JValue.getStr2 (j : JValue) (k1 k2 : String) (d : String) : String :=
  match (j.getD k1 (.obj [])).get? k2 with
  | some (.str s) => s
  | _ => d

/-- Python `msg in lst` for a message list: a string can only equal the string
elements of the list. -/
def strMem (msg : String) : List JValue → Bool
  | [] => false
  | .str s :: rest => s = msg || strMem msg rest
  | _ :: rest => strMem msg rest

/-- `CompleteOrganismValidator._add_error` / `_add_warning`
(organism_validation.py): `setdefault(key, [])` then append the message only
if it is not already present. -/
def addMsg (key msg : String) : JValue → JValue
  | .obj kvs =>
    match lookupAssoc kvs key with
    | none => JValue.set (.obj kvs) key (.list [.str msg])
    | some (.list l) =>
      if strMem msg l then .obj kvs
      else JValue.set (.obj kvs) key (.list (l ++ [.str msg]))
    | some _ => .obj kvs
  | j => j

/-- `CompleteOrganismValidator._add_error`. -/
def addError (j : JValue) (msg : String) : JValue := addMsg "errors" msg j

/-- `CompleteOrganismValidator._add_warning`. -/
def addWarning (j : JValue) (msg : String) : JValue := addMsg "warnings" msg j

/-- `current[part].setdefault('errors', []).extend(errors)` from
`_apply_errors_to_path`: append all messages, with no duplicate check. -/
def extendErrors (msgs : List String) (j : JValue) : JValue :=
  match j with
  | .obj kvs =>
    match lookupAssoc kvs "errors" with
    | none => JValue.set (.obj kvs) "errors" (.list (msgs.map .str))
    | some (.list l) => JValue.set (.obj kvs) "errors" (.list (l ++ msgs.map .str))
    | some _ => .obj kvs
  | _ => j

/-- Python `str.isdigit()` on the path fragments produced below. -/
def isDigits (s : String) : Bool := !s.isEmpty && s.toList.all Char.isDigit

/-- The value of a decimal digit string (only applied to digit strings). -/
def digitsToNat (l : List Char) : Nat := l.foldl (fun n c => n * 10 + (c.toNat - 48)) 0

/-- Python `str.split(sep)` for a one-character separator, on character
lists: `""` splits to `[""]`, separators at the ends produce empty pieces. -/
def splitOnCharAux (c : Char) : List Char → List (List Char)
  | [] => [[]]
  | x :: rest =>
    match splitOnCharAux c rest with
    | acc :: accs => if x = c then [] :: acc :: accs else (x :: acc) :: accs
    | [] => [[]]

/-- Python `s.split(sep)` for a one-character separator. -/
def splitOnChar (c : Char) (s : String) : List String :=
  (splitOnCharAux c s.toList).map (fun l => String.mk l)

/-- Bracket expansion in `_apply_errors_to_path`: `"f[3]"` becomes
`["f", "3"]`; other parts are kept whole. -/
def expandPart (part : String) : List String :=
  if part.toList.contains '[' && part.toList.contains ']' then
    let cs := part.toList
    let fieldName := cs.takeWhile (· ≠ '[')
    let afterBracket := (cs.dropWhile (· ≠ '[')).drop 1
    let idxStr := afterBracket.takeWhile (· ≠ ']')
    [String.mk fieldName, toString (digitsToNat idxStr)]
  else [part]

/-- Path normalisation in `_apply_errors_to_path`: strip a leading slash,
turn slashes into dots, split on dots, expand `[i]` markers. -/
def parsePath (path : String) : List String :=
  let cs := path.toList
  let cs1 := match cs with
    | '/' :: rest => rest
    | other => other
  let cs2 := cs1.map (fun c => if c = '/' then '.' else c)
  ((splitOnCharAux '.' cs2).map (fun l => String.mk l)).flatMap expandPart

/-- The navigation loop of `_apply_errors_to_path`: walk the parsed parts,
and at the final part extend the `errors` list of the addressed dict (or of
every dict item when the addressed value is a list).  An unresolvable segment
drops the messages silently; a path ending at a list index applies nothing
(the Python loop finishes without reaching the mutation case). -/
def applyAtParts (msgs : List String) : List String → JValue → JValue
  | [], j => j
  | part :: rest, j =>
    if isDigits part then
      match j with
      | .list items =>
        let idx := digitsToNat part.toList
        if h : idx < items.length then
          .list (items.set idx (applyAtParts msgs rest (items.get ⟨idx, h⟩)))
        else j
      | _ => j
    else
      match j with
      | .obj kvs =>
        match lookupAssoc kvs part with
        | some v =>
          if rest.isEmpty then
            match v with
            | .obj _ => JValue.set (.obj kvs) part (extendErrors msgs v)
            | .list items =>
              JValue.set (.obj kvs) part
                (.list (items.map (fun it =>
                  match it with
                  | .obj _ => extendErrors msgs it
                  | _ => it)))
            | _ => .obj kvs
          else JValue.set (.obj kvs) part (applyAtParts msgs rest v)
        | none => .obj kvs
      | _ => j

/-- `CompleteOrganismValidator._apply_errors_to_path`. -/
def applyErrorsToPath (root : JValue) (path : String) (msgs : List String) : JValue :=
  if path = "" then root else applyAtParts msgs (parsePath path) root

/-- One entry of the Elixir validator's JSON response as consumed by
`_apply_elixir_errors`: a `dataPath` and a message list. -/
structure ElixirItem where
  dataPath : String
  errors : List String
  deriving Repr, DecidableEq

/-- The known benign message filtered out of Elixir responses. -/
def oneOfMsg : String := "should match exactly one schema in oneOf"

/-- `CompleteOrganismValidator._apply_elixir_errors`: filter `oneOfMsg` out of
each item, drop items left with no messages, route the rest by path. -/
def applyElixirErrors (stru : JValue) (items : List ElixirItem) : JValue :=
  items.foldl (fun acc item =>
    let es := item.errors.filter (· ≠ oneOfMsg)
    if es.isEmpty then acc else applyErrorsToPath acc item.dataPath es) stru

/-- `CompleteOrganismValidator._apply_pydantic_errors`: each Pydantic error is
a dotted location path together with a message. -/
def applyPydanticErrors (stru : JValue) (errs : List (String × String)) : JValue :=
  errs.foldl (fun acc e => applyErrorsToPath acc e.1 [e.2]) stru

/-- The container keys `has_issues` (in `get_submission_status`) recurses
into. -/
def nestedKeys : List String :=
  ["samples_core", "custom", "experiments_core", "dna-binding_proteins",
   "input_dna", "teleostei_embryo", "teleostei_post-hatching"]

/-- `isinstance(item, dict) and 'errors' in item and item['errors']` from
`has_issues`. -/
def itemHasErrors (it : JValue) : Bool :=
  match it with
  | .obj kvs =>
    match lookupAssoc kvs "errors" with
    | some v => v.truthy
    | none => false
  | _ => false

mutual

/-- `has_issues` from `get_submission_status` (organism_validation.py):
recurse only through `nestedKeys`, look for a truthy `errors` entry in dict
values and in dict items of list values. -/
def hasIssues : JValue → Bool
  | .obj kvs => hasIssuesList kvs
  | _ => false

/-- The field loop of `has_issues`. -/
def hasIssuesList : List (String × JValue) → Bool
  | [] => false
  | (k, v) :: rest =>
    (if k ∈ nestedKeys then hasIssues v
     else
       match v with
       | .list items => items.any itemHasErrors
       | .obj kvs2 =>
         match lookupAssoc kvs2 "errors" with
         | some e => e.truthy
         | none => false
       | _ => false) || hasIssuesList rest

end

/-- `get_submission_status` (organism_validation.py): scan every record of
every record type; any issue means "Fix issues". -/
def getSubmissionStatus (validationResults : JValue) : String :=
  match validationResults with
  | .obj kvs =>
    if kvs.any (fun kv =>
        match kv.2 with
        | .list records => records.any hasIssues
        | _ => false)
    then "Fix issues" else "Ready for submission"
  | _ => "Ready for submission"

mutual

/-- Does any `errors` key anywhere in the tree hold a non-empty list?  This is
the reading of "some outcome tree anywhere contains a non-empty errors list"
in the spec, used to state what `get_submission_status` misses. -/
def containsNonemptyErrors : JValue → Bool
  | .obj kvs => containsNonemptyErrorsAssoc kvs
  | .list items => containsNonemptyErrorsList items
  | _ => false

def containsNonemptyErrorsAssoc : List (String × JValue) → Bool
  | [] => false
  | (k, v) :: rest =>
    (k = "errors" &&
      (match v with
       | .list l => !l.isEmpty
       | _ => false))
    || containsNonemptyErrors v || containsNonemptyErrorsAssoc rest

def containsNonemptyErrorsList : List JValue → Bool
  | [] => false
  | v :: rest => containsNonemptyErrors v || containsNonemptyErrorsList rest

end

/-- One OLS search result as stored in the ontology cache. -/
structure OlsDoc where
  label : String
  ontology_name : String
  deriving Repr, DecidableEq

/-- Projection of one BioSamples record as stored in `biosamples_cache`
(fields default to `''` via `.get(..., '')`). -/
structure BioEntry where
  organism : String := ""
  material : String := ""
  deriving Repr, DecidableEq

/-- `MISSING_VALUES[requirement]`: which sentinel strings raise an error and
which a warning at that requirement tier. -/
structure MissingConfig where
  errorValues : List String := []
  warningValues : List String := []

/-- The environment of one `CompleteOrganismValidator` run: the responses of
the three external collaborators (Elixir validator, OLS term cache,
BioSamples cache), the configuration extracted from the fetched JSON schemas
(`field_requirements`, `ontology_names`), and the tables from the
`constants` module that is not part of the source tree. -/
structure ValEnv where
  organismSchemaPresent : Bool
  elixirMain : JValue → Except Unit (List ElixirItem)
  elixirBreed : String → String → Except Unit (List ElixirItem)
  ontologyCache : String → Option (List OlsDoc)
  recommendedType : List String
  recommendedCore : List String
  requirementType : String → Option String
  requirementCore : String → Option String
  missingValues : String → MissingConfig
  ontologyNames : String → Option (List String)
  skipProperties : List String
  allowedRelationships : List String
  speciesBreedLinks : String → Option String
  biosamples : String → Option BioEntry

/-- `CompleteOrganismValidator._validate_with_elixir`: the parsed response on
success; `[]` when the request raises or `raise_for_status` fires. -/
def validateWithElixirMain (resp : Except Unit (List ElixirItem)) : List ElixirItem :=
  match resp with
  | .ok items => items
  | .error _ => []

/-- Replace the value bound to `k` by `f` of it; no effect when the key is
absent or `j` is not a dict. -/
def JValue.updateField (j : JValue) (k : String) (f : JValue → JValue) : JValue :=
  match j.get? k with
  | some v => j.set k (f v)
  | none => j

/-- The field names of `FAANGOrganismSample` (organism_ruleset.py), including
those inherited from `SampleCoreMetadata` (standard_ruleset.py). -/
def faangOrganismFields : List String :=
  ["material", "project", "describedBy", "schema_version", "sample_description",
   "availability", "same_as", "secondary_project", "organism", "sex",
   "birth_date", "breed", "health_status", "diet", "birth_location",
   "birth_location_latitude", "birth_location_longitude", "birth_weight",
   "placental_weight", "pregnancy_length", "delivery_timing", "delivery_ease",
   "pedigree", "child_of", "custom"]

/-- The required (`Field(...)`) fields of `FAANGOrganismSample`. -/
def faangRequiredFields : List String := ["material", "project", "organism", "sex"]

/-- Partial model of `FAANGOrganismSample(**org_data)` (organism_ruleset.py):
each required field that is absent or None yields `field required` at its
location, and each key outside the model's field set yields
`extra fields not permitted` (`Config.extra = "forbid"`).  Nested field
validators and type coercions are not modelled; the claims below use only
whether construction fails and the (path, message) pairs of these structural
violations. -/
def pydanticValidate (org : JValue) : List (String × String) :=
  let missing := faangRequiredFields.filter (fun f =>
    match org.get? f with
    | none => true
    | some .null => true
    | some _ => false)
  let extra :=
    match org with
    | .obj kvs => (kvs.map Prod.fst).filter (fun k => k ∉ faangOrganismFields)
    | _ => []
  missing.map (fun f => (f, "field required")) ++
    extra.map (fun k => (k, "extra fields not permitted"))

/-- `field not in d or d[field] is None`. -/
def fieldMissingOrNone (d : JValue) (field : String) : Bool :=
  match d.get? field with
  | none => true
  | some .null => true
  | some _ => false

def recommendedMsg : String := "This item is recommended but was not provided"

/-- `CompleteOrganismValidator._check_recommended_fields`. -/
def checkRecommendedFields (env : ValEnv) (org rec : JValue) : JValue :=
  let r1 := env.recommendedType.foldl (fun acc field =>
    if fieldMissingOrNone org field then
      acc.updateField field (fun v => addWarning v recommendedMsg)
    else acc) rec
  if org.hasKey "samples_core" then
    let core := org.getD "samples_core" (.obj [])
    env.recommendedCore.foldl (fun acc field =>
      if fieldMissingOrNone core field then
        acc.updateField "samples_core" (fun sc =>
          sc.updateField field (fun v => addWarning v recommendedMsg))
      else acc) r1
  else r1

def allCharsDigit (s : String) : Bool := s.toList.all Char.isDigit

/-- `%Y` in CPython's strptime: exactly four digits; `datetime` then rejects
year 0. -/
def parseYear (s : String) : Option Nat :=
  let cs := s.toList
  if cs.length = 4 && cs.all Char.isDigit then
    let y := digitsToNat cs
    if 1 ≤ y then some y else none
  else none

/-- `%m`: one or two digits with value 1..12. -/
def parseMonth (s : String) : Option Nat :=
  let cs := s.toList
  if (cs.length = 1 || cs.length = 2) && cs.all Char.isDigit then
    let m := digitsToNat cs
    if 1 ≤ m && m ≤ 12 then some m else none
  else none

def isLeapYear (y : Nat) : Bool := (y % 4 = 0 && y % 100 ≠ 0) || y % 400 = 0

def daysInMonth (y m : Nat) : Nat :=
  if m = 2 then (if isLeapYear y then 29 else 28)
  else if m = 4 || m = 6 || m = 9 || m = 11 then 30
  else 31

/-- `datetime.strptime(v, '%Y-%m-%d')` succeeds: shape and calendar
validity. -/
def strptimeFullDate (v : String) : Bool :=
  match splitOnChar '-' v with
  | [ys, ms, ds] =>
    match parseYear ys, parseMonth ms with
    | some y, some m =>
      let dcs := ds.toList
      if (dcs.length = 1 || dcs.length = 2) && dcs.all Char.isDigit then
        let d := digitsToNat dcs
        1 ≤ d && d ≤ daysInMonth y m
      else false
    | _, _ => false
  | _ => false

/-- `datetime.strptime(v, '%Y-%m')` succeeds. -/
def strptimeYearMonth (v : String) : Bool :=
  match splitOnChar '-' v with
  | [ys, ms] => (parseYear ys).isSome && (parseMonth ms).isSome
  | _ => false

/-- `datetime.strptime(v, '%Y')` succeeds. -/
def strptimeYear (v : String) : Bool :=
  match splitOnChar '-' v with
  | [ys] => (parseYear ys).isSome
  | _ => false

/-- The missing-value sentinel strings, in the order of
`_is_date_format_valid`. -/
def missingValueSentinels : List String :=
  ["not applicable", "not collected", "not provided", "restricted access"]

/-- `CompleteOrganismValidator._is_date_format_valid`. -/
def isDateFormatValid (dateValue dateUnits : String) : Bool :=
  if dateValue ∈ missingValueSentinels then true
  else if dateUnits = "YYYY-MM-DD" then strptimeFullDate dateValue
  else if dateUnits = "YYYY-MM" then strptimeYearMonth dateValue
  else if dateUnits = "YYYY" then strptimeYear dateValue
  else true

/-- Python `sub in s` on the character lists of the two strings. -/
def containsSub (pat : List Char) : List Char → Bool
  | [] => pat.isEmpty
  | c :: rest => pat.isPrefixOf (c :: rest) || containsSub pat rest

def dateErrorMsg (units value : String) : String :=
  "Date units: " ++ units ++ " should be consistent with date value: " ++ value

/-- The inner `check_dates_in_dict` of `_validate_all_dates`: for each field
of `dataDict` whose name contains "date" and whose value is a dict with
string `value` and `units` entries failing `_is_date_format_valid`, add the
error to the same field of `structureDict` (`structure_dict.get(field, {})`
silently drops it when the output field is absent). -/
def checkDatesInDict (dataDict structureDict : JValue) : JValue :=
  match dataDict with
  | .obj kvs =>
    kvs.foldl (fun acc kv =>
      if containsSub "date".toList kv.1.toList then
        match kv.2 with
        | .obj fkvs =>
          match lookupAssoc fkvs "value", lookupAssoc fkvs "units" with
          | some (.str v), some (.str u) =>
            if !isDateFormatValid v u then
              acc.updateField kv.1 (fun fv => addError fv (dateErrorMsg u v))
            else acc
          | _, _ => acc
        | _ => acc
      else acc) structureDict
  | _ => structureDict

/-- `CompleteOrganismValidator._validate_all_dates`: top level, then
`samples_core`. -/
def validateAllDates (org rec : JValue) : JValue :=
  let r1 := checkDatesInDict org rec
  if org.hasKey "samples_core" then
    match r1.get? "samples_core" with
    | some sc =>
      r1.set "samples_core" (checkDatesInDict (org.getD "samples_core" (.obj [])) sc)
    | none => r1
  else r1

def missingErrMsg (fieldName : String) : String :=
  "Field '" ++ fieldName ++ "' contains missing value that is not appropriate for this field"

def missingWarnMsg (fieldName : String) : String :=
  "Field '" ++ fieldName ++ "' contains missing value that may not be appropriate for this field"

/-- `field_data.get('value') or field_data.get('text')` (first truthy). -/
def missingCandidate (fieldData : JValue) : Option JValue :=
  match fieldData with
  | .obj _ =>
    let a := (fieldData.get? "value").getD .null
    let b := (fieldData.get? "text").getD .null
    if a.truthy then some a else if b.truthy then some b else none
  | _ => none

/-- The inner `check_field_missing_values` of `_check_missing_values`. -/
def checkFieldMissingValues (env : ValEnv) (fieldName : String)
    (fieldData structureData : JValue) (requirement : String) : JValue :=
  let cfg := env.missingValues requirement
  match missingCandidate fieldData with
  | some (.str s) =>
    if s ∈ cfg.errorValues then addError structureData (missingErrMsg fieldName)
    else if s ∈ cfg.warningValues then addWarning structureData (missingWarnMsg fieldName)
    else structureData
  | _ => structureData

/-- Update the structure items pointwise against the data items; structure
items beyond the data (and data beyond the structure) are left alone, as in
`if i < len(record_structure[field_name])`. -/
def zipUpdate (f : JValue → JValue → JValue) : List JValue → List JValue → List JValue
  | d :: ds, s :: ss => f d s :: zipUpdate f ds ss
  | _, ss => ss

/-- `CompleteOrganismValidator._check_missing_values`. -/
def checkMissingValues (env : ValEnv) (org rec : JValue) : JValue :=
  let r1 :=
    match org with
    | .obj kvs =>
      kvs.foldl (fun acc kv =>
        if kv.1 ∈ env.skipProperties then acc
        else
          match env.requirementType kv.1 with
          | none => acc
          | some req =>
            match kv.2 with
            | .list items =>
              acc.updateField kv.1 (fun sv =>
                match sv with
                | .list sitems =>
                  .list (zipUpdate
                    (fun d s => checkFieldMissingValues env kv.1 d s req) items sitems)
                | _ => sv)
            | _ =>
              acc.updateField kv.1 (fun sv =>
                checkFieldMissingValues env kv.1 kv.2 sv req)) rec
    | _ => rec
  if org.hasKey "samples_core" then
    match org.getD "samples_core" (.obj []) with
    | .obj ckvs =>
      ckvs.foldl (fun acc kv =>
        match env.requirementCore kv.1 with
        | none => acc
        | some req =>
          acc.updateField "samples_core" (fun sc =>
            sc.updateField kv.1 (fun sv =>
              checkFieldMissingValues env kv.1 kv.2 sv req))) r1
    | _ => r1
  else r1

def ontologyWarnMsg (text label term : String) : String :=
  "Provided value '" ++ text ++ "' doesn't precisely match '" ++ label ++
    "' for term '" ++ term ++ "'"

/-- The inner `check_ontology_field` of `_validate_ontology_consistency`. -/
def checkOntologyField (env : ValEnv) (fieldData structureData : JValue)
    (expectedOntology : Option String) : JValue :=
  match fieldData with
  | .obj kvs =>
    match lookupAssoc kvs "term", lookupAssoc kvs "text" with
    | some (.str term), some (.str text) =>
      match env.ontologyCache term with
      | some docs =>
        let labels := docs.foldl (fun ls doc =>
          match expectedOntology with
          | some exp =>
            if doc.ontology_name.toLower = exp.toLower then ls ++ [doc.label.toLower]
            else ls
          | none => ls ++ [doc.label.toLower]) []
        if !labels.isEmpty && text.toLower ∉ labels then
          addWarning structureData (ontologyWarnMsg text (labels.headD "") term)
        else structureData
      | none => structureData
    | _, _ => structureData
  | _ => structureData

/-- `CompleteOrganismValidator._validate_ontology_consistency`. -/
def validateOntologyConsistency (env : ValEnv) (org rec : JValue) : JValue :=
  let r1 :=
    match org with
    | .obj kvs =>
      kvs.foldl (fun acc kv =>
        if kv.1 ∈ env.skipProperties then acc
        else
          let expected : Option String :=
            match env.ontologyNames kv.1 with
            | some (n :: _) => some n
            | some [] => none
            | none => none
          match kv.2 with
          | .list items =>
            acc.updateField kv.1 (fun sv =>
              match sv with
              | .list sitems =>
                .list (zipUpdate
                  (fun d s => checkOntologyField env d s expected) items sitems)
              | _ => sv)
          | _ =>
            acc.updateField kv.1 (fun sv =>
              checkOntologyField env kv.2 sv expected)) rec
    | _ => rec
  if org.hasKey "samples_core" && r1.hasKey "samples_core" then
    match org.getD "samples_core" (.obj []) with
    | .obj ckvs =>
      ckvs.foldl (fun acc kv =>
        acc.updateField "samples_core" (fun sc =>
          sc.updateField kv.1 (fun sv =>
            checkOntologyField env kv.2 sv none))) r1
    | _ => r1
  else r1

def breedSpeciesMsg (breedText organismText : String) : String :=
  "Breed '" ++ breedText ++ "' doesn't match the animal specie: '" ++
    organismText ++ "'"

/-- `CompleteOrganismValidator._validate_breed_species`: consult
SPECIES_BREED_LINKS, skip the `not applicable`/`restricted access` breed
sentinels, send the breed term to the Elixir validator against the
graph-restriction schema for the species' breed class, and on any reported
error attach the message to the `organism` field of the output record. -/
def validateBreedSpecies (env : ValEnv) (org rec : JValue) : JValue :=
  match (org.getD "organism" (.obj [])).get? "term",
        (org.getD "breed" (.obj [])).get? "term" with
  | some (.str ot), some (.str bt) =>
    match env.speciesBreedLinks ot with
    | some cls =>
      if !bt.isEmpty && bt ≠ "not applicable" && bt ≠ "restricted access" then
        if !(validateWithElixirMain (env.elixirBreed cls bt)).isEmpty then
          rec.updateField "organism" (fun v =>
            addError v (breedSpeciesMsg (org.getStr2 "breed" "text" "")
              (org.getStr2 "organism" "text" "")))
        else rec
      else rec
    | none => rec
  | _, _ => rec

/-- `CompleteOrganismValidator._validate_custom_fields`. -/
def validateCustomFields (env : ValEnv) (customData customStructure : JValue) : JValue :=
  match customData with
  | .obj kvs =>
    kvs.foldl (fun acc kv =>
      match kv.2 with
      | .obj fkvs =>
        match lookupAssoc fkvs "term", lookupAssoc fkvs "text" with
        | some (.str term), some (.str text) =>
          match env.ontologyCache term with
          | some docs =>
            if acc.hasKey kv.1 && !docs.isEmpty then
              let label := (docs.headD ⟨"", ""⟩).label.toLower
              if text.toLower ≠ label then
                acc.updateField kv.1 (fun v =>
                  addWarning v (ontologyWarnMsg text label term))
              else acc
            else acc
          | none => acc
        | _, _ => acc
      | _ => acc) customStructure
  | _ => customStructure

/-- `CompleteOrganismValidator._validate_single_organism`: Elixir schema
validation first, then Pydantic structural validation; only when the model
builds do the remaining per-record checks run, and a `ValidationError`
short-circuits to `_apply_pydantic_errors`. -/
def validateSingleOrganism (env : ValEnv) (org rec : JValue) : JValue :=
  let r1 :=
    if env.organismSchemaPresent then
      applyElixirErrors rec (validateWithElixirMain (env.elixirMain org))
    else rec
  match pydanticValidate org with
  | [] =>
    let r2 := checkRecommendedFields env org r1
    let r3 := validateAllDates org r2
    let r4 := checkMissingValues env org r3
    let r5 := validateOntologyConsistency env org r4
    let r6 :=
      if org.hasKey "breed" && org.hasKey "organism" then
        validateBreedSpecies env org r5
      else r5
    if org.hasKey "custom" then
      r6.updateField "custom" (fun c =>
        validateCustomFields env (org.getD "custom" (.obj [])) c)
    else r6
  | errs => applyPydanticErrors r1 errs

/-- `CompleteOrganismValidator._get_record_name`. -/
def getRecordName (record : JValue) (index : Nat) (name action : String) : String :=
  let colName := if action = "update" then "biosample_id" else "sample_name"
  let fallback := name ++ "_" ++ toString (index + 1)
  if record.hasKey "custom" && (record.getD "custom" (.obj [])).hasKey colName then
    match ((record.getD "custom" (.obj [])).getD colName (.obj [])).get? "value" with
    | some (.str s) => s
    | _ => ""
  else if record.hasKey "alias" then
    match (record.getD "alias" (.obj [])).get? "value" with
    | some (.str s) => s
    | _ => fallback
  else fallback

/-- `CompleteOrganismValidator._convert_to_structure`. -/
def convertToStructure (template : JValue) (data : Option JValue) : JValue :=
  match template with
  | .obj tkvs =>
    .obj (tkvs.map (fun kv =>
      match data with
      | none => (kv.1, JValue.null)
      | some d =>
        match d.get? kv.1 with
        | some v => (kv.1, v)
        | none => (kv.1, JValue.null)))
  | _ => .obj []

/-- `CompleteOrganismValidator._parse_data`. -/
def parseData (stru record : JValue) : JValue :=
  match stru with
  | .obj skvs =>
    .obj (skvs.foldl (fun acc kv =>
      match kv.2 with
      | .obj _ => acc ++ [(kv.1, convertToStructure kv.2 (record.get? kv.1))]
      | .list templates =>
        let items :=
          match record.get? kv.1 with
          | some (.list ritems) =>
            ritems.mapIdx (fun i item =>
              convertToStructure (templates.getD i (templates.headD .null)) (some item))
          | _ => templates.map (fun t => convertToStructure t none)
        acc ++ [(kv.1, JValue.list items)]
      | _ => acc) [])
  | _ => .obj []

/-- `CompleteOrganismValidator._get_record_structure` (the unused
`record_name` argument is dropped). -/
def getRecordStructure (stru record : JValue) : JValue :=
  let result := parseData (stru.getD "type" (.obj [])) record
  let result :=
    if record.hasKey "samples_core" && stru.hasKey "core" then
      result.set "samples_core"
        (parseData (stru.getD "core" (.obj [])) (record.getD "samples_core" .null))
    else result
  if stru.hasKey "custom" then
    result.set "custom" (parseData (stru.getD "custom" (.obj [])) (record.getD "custom" (.obj [])))
  else result

def digitsNonempty (l : List Char) : Bool := !l.isEmpty && l.all Char.isDigit

/-- The regex `^SAM[AED][AG]?\d+$` of `_verify_biosample_ids`. -/
def isBiosampleIdFormat (s : String) : Bool :=
  match s.toList with
  | 'S' :: 'A' :: 'M' :: c :: rest =>
    (c = 'A' || c = 'E' || c = 'D') &&
      (digitsNonempty rest ||
        (match rest with
         | c2 :: rest2 => (c2 = 'A' || c2 = 'G') && digitsNonempty rest2
         | [] => false))
  | _ => false

/-- `CompleteOrganismValidator._verify_biosample_ids`. -/
def verifyBiosampleIds (organisms : List JValue) : List String :=
  organisms.foldl (fun acc org =>
    let bidStr :=
      match ((org.getD "custom" (.obj [])).getD "biosample_id" (.obj [])).get? "value" with
      | some (.str s) => s
      | _ => ""
    if !isBiosampleIdFormat bidStr then
      acc ++ ["Invalid BioSample ID format: " ++ bidStr]
    else acc) []

/-- Python dict insertion building `organism_map`: update in place when the
key exists, otherwise append. -/
def dictInsert (m : List (String × Nat)) (k : String) (v : Nat) : List (String × Nat) :=
  if m.any (fun p => p.1 = k) then m.map (fun p => if p.1 = k then (k, v) else p)
  else m ++ [(k, v)]

/-- Lookup in the (unique-key) association list. -/
def dictFind : List (String × Nat) → String → Option Nat
  | [], _ => none
  | p :: rest, k => if p.1 = k then some p.2 else dictFind rest k

/-- The `organism_map` of `_validate_relationships_batch`: record name to its
index in the batch (the record/structure pair is recovered by the index). -/
def buildOrganismMap (organisms : List JValue) (action : String) : List (String × Nat) :=
  (organisms.mapIdx (fun i org => (getRecordName org i "organism" action, i))).foldl
    (fun m kv => dictInsert m kv.1 kv.2) []

/-- `org.get('child_of', [])` followed by wrapping a lone dict in a list. -/
def childOfRaw (org : JValue) : List JValue :=
  match org.getD "child_of" (.list []) with
  | .list l => l
  | .obj kvs => [.obj kvs]
  | _ => []

/-- `parent_ref.get('value', '')` read as a string. -/
def refValue (ref : JValue) : String :=
  match ref.get? "value" with
  | some (.str s) => s
  | _ => ""

def noEntityMsg (pid : String) : String :=
  "Relationships part: no entity '" ++ pid ++ "' found"

def speciesMismatchMsg (child parent : String) : String :=
  "Relationships part: the specie of the child '" ++ child ++
    "' doesn't match the specie of the parent '" ++ parent ++ "'"

def materialMsg (pid : String) (allowed : List String) : String :=
  "Relationships part: referenced entity '" ++ pid ++
    "' does not match condition 'should be " ++ String.intercalate " or " allowed ++ "'"

def cycleMsg (pid : String) : String :=
  "Relationships part: parent '" ++ pid ++ "' is listing the child as its parent"

/-- `grandparent.get('value') == name` (a missing value is None, never equal
to the string `name`). -/
def gpValueIs (gp : JValue) (name : String) : Bool :=
  match gp.get? "value" with
  | some (.str s) => s = name
  | _ => false

/-- Mutate `record['child_of'][i]` (no change when the list is absent or too
short; after the initialisation step the record always carries it). -/
def updateChildOfAt (rec : JValue) (i : Nat) (f : JValue → JValue) : JValue :=
  rec.updateField "child_of" (fun co =>
    match co with
    | .list items =>
      if h : i < items.length then .list (items.set i (f (items.get ⟨i, h⟩)))
      else co
    | _ => co)

/-- `if 'child_of' not in record: record['child_of'] = [{'value': None}, ...]`. -/
def ensureChildOf (rec : JValue) (n : Nat) : JValue :=
  if rec.hasKey "child_of" then rec
  else rec.set "child_of" (.list (List.replicate n (.obj [("value", JValue.null)])))

/-- The body of the per-reference loop of `_validate_relationships_batch`:
sentinel skip, existence, species match, allowed material, mutual-parent
cycle; every error lands on `record['child_of'][i]`. -/
def processParentRef (env : ValEnv) (organisms : List JValue)
    (omap : List (String × Nat)) (name : String) (org : JValue)
    (refs : List JValue) (i : Nat) (ref : JValue) (rec : JValue) : JValue :=
  let pid := refValue ref
  if pid = "restricted access" then rec
  else
    let rec0 := ensureChildOf rec refs.length
    if (dictFind omap pid).isNone && (env.biosamples pid).isNone then
      updateChildOfAt rec0 i (fun fd => addError fd (noEntityMsg pid))
    else
      let parentInfo : String × String :=
        match dictFind omap pid with
        | some pidx => ((organisms.getD pidx .null).getStr2 "organism" "text" "", "organism")
        | none =>
          match env.biosamples pid with
          | some entry => (entry.organism, (entry.material.toLower).replace " " "_")
          | none => ("", "")
      let currentSpecies := org.getStr2 "organism" "text" ""
      let rec1 :=
        if !currentSpecies.isEmpty && !parentInfo.1.isEmpty &&
            currentSpecies ≠ parentInfo.1 then
          updateChildOfAt rec0 i (fun fd =>
            addError fd (speciesMismatchMsg currentSpecies parentInfo.1))
        else rec0
      let rec2 :=
        if !parentInfo.2.isEmpty && parentInfo.2 ∉ env.allowedRelationships then
          updateChildOfAt rec1 i (fun fd =>
            addError fd (materialMsg pid env.allowedRelationships))
        else rec1
      match dictFind omap pid with
      | some pidx =>
        (childOfRaw (organisms.getD pidx .null)).foldl (fun r gp =>
          if gpValueIs gp name then
            updateChildOfAt r i (fun fd => addError fd (cycleMsg pid))
          else r) rec2
      | none => rec2

/-- The per-record part of `_validate_relationships_batch`: skip records with
a falsy `child_of`, then run the reference loop. -/
def processRecordRelationships (env : ValEnv) (organisms : List JValue)
    (omap : List (String × Nat)) (name : String) (org rec : JValue) : JValue :=
  if !(org.getD "child_of" (.list [])).truthy then rec
  else
    let refs := childOfRaw org
    refs.enum.foldl (fun r p =>
      processParentRef env organisms omap name org refs p.1 p.2 r) rec

/-- `CompleteOrganismValidator._validate_relationships_batch`, acting on the
organisms and the per-record validation structures of the first pass; the
BioSamples fetch only populates `env.biosamples`. -/
def validateRelationshipsBatch (env : ValEnv) (organisms : List JValue)
    (recs : List JValue) (action : String) : List JValue :=
  let omap := buildOrganismMap organisms action
  omap.foldl (fun rs kv =>
    let org := organisms.getD kv.2 .null
    let rec0 := rs.getD kv.2 .null
    rs.set kv.2 (processRecordRelationships env organisms omap kv.1 org rec0)) recs

/-- `CompleteOrganismValidator.validate_batch`. -/
def validateBatch (env : ValEnv) (jsonData stru : JValue) (action : String) : JValue :=
  let organisms :=
    match jsonData.getD "organism" (.list []) with
    | .list l => l
    | _ => []
  if action = "update" && !(verifyBiosampleIds organisms).isEmpty then
    .obj [("organism", .list [.obj
      [("errors", .list ((verifyBiosampleIds organisms).map .str)),
       ("submission_status", .str "Fix issues")]])]
  else
    let recs := organisms.mapIdx (fun _ org =>
      validateSingleOrganism env org (getRecordStructure (stru.getD "organism" (.obj [])) org))
    let recs2 :=
      if organisms.length > 1 then validateRelationshipsBatch env organisms recs action
      else recs
    .obj [("organism", .list recs2)]

/-- `validate_organisms_for_django`: the batch results plus the derived
submission status. -/
def validateOrganismsForDjango (env : ValEnv) (jsonData stru : JValue)
    (action : String) : JValue × String :=
  let results := validateBatch env jsonData stru action
  (results, getSubmissionStatus results)

/-- `ValidationResult` (ontology_validator.py / organism_validator_classes.py);
the `value` attribute is never set by the embedded code paths and is
omitted. -/
structure ValidationResult where
  errors : List String := []
  warnings : List String := []
  field_path : String
  deriving Repr, DecidableEq

/-- `OntologyValidator._fetch_from_ols` with `cache_enabled=True`: a cache
hit returns the cached docs without a request; otherwise the OLS search runs
(`ols` is its result, transport failures already collapsed to `[]` by the
`except` branch).  The Bool records whether a request was issued. -/
def fetchFromOls (cache : String → Option (List OlsDoc)) (ols : String → List OlsDoc)
    (termId : String) : List OlsDoc × Bool :=
  match cache termId with
  | some docs => (docs, false)
  | none => (ols termId, true)

def termNotFoundMsg (term : String) : String := "Term " ++ term ++ " not found in OLS"

/-- `OntologyValidator.validate_ontology_term` (ontology_validator.py; the
copy in organism_validator_classes.py is identical).  The `allowed_classes`
argument is unused in the source body and kept for the signature.  Returns
the result together with whether an OLS request was made. -/
def validateOntologyTerm (cache : String → Option (List OlsDoc))
    (ols : String → List OlsDoc) (term ontologyName : String)
    (allowedClasses : List String) (text : Option String) :
    ValidationResult × Bool :=
  let base : ValidationResult := { field_path := ontologyName ++ ":" ++ term }
  if term = "restricted access" then (base, false)
  else
    let fetched := fetchFromOls cache ols term
    let result : ValidationResult :=
      if fetched.1.isEmpty then { base with errors := [termNotFoundMsg term] }
      else
        match text with
        | some t =>
          if !t.isEmpty then
            let filtered := (fetched.1.filter
              (fun d => d.ontology_name.toLower = ontologyName.toLower)).map
              (fun d => d.label.toLower)
            let olsLabels :=
              if filtered.isEmpty then fetched.1.map (fun d => d.label.toLower)
              else filtered
            if t.toLower ∉ olsLabels then
              { base with
                  warnings := [ontologyWarnMsg t (olsLabels.headD "unknown") term] }
            else base
          else base
        | none => base
    (result, fetched.2)

/-- One item of the Elixir response as read by
`OntologyValidator.validate_with_elixir`. -/
structure RawElixirItem where
  dataPath : String := ""
  instancePath : String := ""
  errors : List String
  deriving Repr, DecidableEq

/-- `item.get('dataPath', '') or item.get('instancePath', '')`. -/
def rawItemPath (item : RawElixirItem) : String :=
  if !item.dataPath.isEmpty then item.dataPath else item.instancePath

/-- The response-processing loop of `OntologyValidator.validate_with_elixir`:
skip items with a falsy `errors` list, filter `oneOfMsg` out, keep only items
with messages remaining. -/
def processElixirItems : List RawElixirItem → List ValidationResult
  | [] => []
  | item :: rest =>
    (if !item.errors.isEmpty then
      let es := item.errors.filter (· ≠ oneOfMsg)
      if !es.isEmpty then [{ field_path := rawItemPath item, errors := es }] else []
    else []) ++ processElixirItems rest

/-- `OntologyValidator.validate_with_elixir`: a transport exception or a
non-200 status yields no results (the error is printed and swallowed); a 200
response is normalised by `processElixirItems`. -/
def validateWithElixir (resp : Except Unit (Nat × List RawElixirItem)) :
    List ValidationResult :=
  match resp with
  | .error _ => []
  | .ok sb => if sb.1 = 200 then processElixirItems sb.2 else []

/-- The `graph_restriction` dict built by
`BreedSpeciesValidator.validate_breed_for_species`. -/
structure GraphRestriction where
  ontologies : List String
  classes : List String
  relations : List String
  direct : Bool
  include_self : Bool
  deriving Repr, DecidableEq

/-- The breed schema `{"type": "string", "graph_restriction": ...}`. -/
structure BreedSchema where
  type : String
  graph_restriction : GraphRestriction
  deriving Repr, DecidableEq

def breedSchemaFor (cls : String) : BreedSchema :=
  { type := "string",
    graph_restriction :=
      { ontologies := ["obo:lbo"], classes := [cls],
        relations := ["rdfs:subClassOf"], direct := false, include_self := true } }

def breedMismatchMsg : String := "Breed doesn't match the animal species"

/-- `BreedSpeciesValidator.validate_breed_for_species`
(breed_species_validator.py): silent pass when the species has no entry in
SPECIES_BREED_LINKS or the breed term is `not applicable`/`restricted
access`; otherwise delegate the bare breed term with the graph-restriction
schema to the Elixir validator and collapse any non-empty result to the
single message `breedMismatchMsg`. -/
def validateBreedForSpecies (links : String → Option String)
    (delegate : String → BreedSchema → List ValidationResult)
    (organismTerm breedTerm : String) : List String :=
  match links organismTerm with
  | none => []
  | some cls =>
    if breedTerm = "not applicable" || breedTerm = "restricted access" then []
    else if !(delegate breedTerm (breedSchemaFor cls)).isEmpty then [breedMismatchMsg]
    else []

/-! Extraction helpers used to state properties of validation documents. -/

/-- The string messages in the list bound to `key` (typically `errors` or
`warnings`) of an outcome dict. -/
def msgsAt (j : JValue) (key : String) : List String :=
  match j.get? key with
  | some (.list l) => l.filterMap (fun v => match v with | .str s => some s | _ => none)
  | _ => []

/-- `record['child_of'][i]` of an outcome record (null when absent). -/
def childItem (rec : JValue) (i : Nat) : JValue :=
  match rec.get? "child_of" with
  | some (.list items) => items.getD i .null
  | _ => .null

/-- The error messages attached at `record['child_of'][i]`. -/
def recChildOfErrors (rec : JValue) (i : Nat) : List String :=
  msgsAt (childItem rec i) "errors"

/-- The error messages attached at `organism[idx].child_of[i]` of a
validation document. -/
def childOfErrorsAt (doc : JValue) (idx i : Nat) : List String :=
  match doc.get? "organism" with
  | some (.list recs) => recChildOfErrors (recs.getD idx .null) i
  | _ => []

/-- The error messages attached at a top-level field of an outcome record. -/
def fieldErrors (rec : JValue) (field : String) : List String :=
  msgsAt (rec.getD field .null) "errors"

/-! Shared concrete environments and inputs. -/

/-- Modelled from the spec: `ALLOWED_RELATIONSHIPS['organism']` from the
missing `constants` module.  §8's concrete scenario requires a local organism
parent to produce no relationship errors, so `organism` is an allowed parent
material for organism records. -/
def allowedRelationshipsOrganism : List String := ["organism"]

/-- A baseline environment: no loaded organism schema, failing external
collaborators, empty caches and configuration tables. -/
def envBase : ValEnv where
  organismSchemaPresent := false
  elixirMain := fun _ => .error ()
  elixirBreed := fun _ _ => .error ()
  ontologyCache := fun _ => none
  recommendedType := []
  recommendedCore := []
  requirementType := fun _ => none
  requirementCore := fun _ => none
  missingValues := fun _ => {}
  ontologyNames := fun _ => none
  skipProperties := []
  allowedRelationships := allowedRelationshipsOrganism
  speciesBreedLinks := fun _ => none
  biosamples := fun _ => none

/-- The organism-level structure template used by the batch examples:
`organism` term field, one-element `child_of` list. -/
def orgStruDef : JValue :=
  .obj [("organism", .obj [("type", .obj
    [("organism", .obj [("text", JValue.null), ("term", JValue.null)]),
     ("child_of", .list [.obj [("value", JValue.null)]])])])]

/-- C1: a record that fails Pydantic validation (missing `material`,
`project` and `sex`) while declaring a `child_of` reference to a nonexistent
target. -/
def c1OrgA : JValue :=
  .obj [("organism", .obj [("text", .str "Bos taurus"), ("term", .str "NCBITaxon:9913")]),
        ("child_of", .list [.obj [("value", .str "GHOST")]]),
        ("custom", .obj [("sample_name", .obj [("value", .str "RECA")])])]

/-- C1: a second record making the batch have more than one element. -/
def c1OrgB : JValue :=
  .obj [("organism", .obj [("text", .str "Bos taurus"), ("term", .str "NCBITaxon:9913")]),
        ("custom", .obj [("sample_name", .obj [("value", .str "RECB")])])]

def c1Json : JValue := .obj [("organism", .list [c1OrgA, c1OrgB])]

/-- C1: an environment with a responding external schema validator. -/
def c1EnvElixir : ValEnv :=
  { envBase with
      organismSchemaPresent := true
      elixirMain := fun _ => .ok [{ dataPath := "/organism", errors := ["elixir finding"] }] }

/-- C1: an environment differing from `envBase` only in the ontology cache
and the requirement/breed configuration (not in the Elixir components). -/
def c1EnvAlt : ValEnv :=
  { envBase with
      ontologyCache := fun _ => some [{ label := "bos taurus", ontology_name := "ncbitaxon" }]
      requirementType := fun _ => some "mandatory"
      missingValues := fun _ => { errorValues := missingValueSentinels }
      speciesBreedLinks := fun _ => some "LBO:0000001" }

/-- C2: an update batch whose single record carries no BioSample ID. -/
def c2Json : JValue :=
  .obj [("organism", .list [.obj
    [("custom", .obj [("sample_name", .obj [("value", .str "ORG1")])])]])]

/-- C2: the document `validate_batch` returns for `c2Json` under
`action='update'`. -/
def c2Doc : JValue :=
  .obj [("organism", .list [.obj
    [("errors", .list [.str "Invalid BioSample ID format: "]),
     ("submission_status", .str "Fix issues")]])]

/-- C3: an environment whose external schema validator reports the same
message twice for the same path. -/
def c3Env : ValEnv :=
  { envBase with
      organismSchemaPresent := true
      elixirMain := fun _ => .ok
        [{ dataPath := "/organism", errors := ["bad term"] },
         { dataPath := "/organism", errors := ["bad term"] }] }

def c3Org : JValue :=
  .obj [("organism", .obj [("text", .str "x"), ("term", .str "t")])]

def c3Rec : JValue :=
  .obj [("organism", .obj [("text", JValue.null), ("term", JValue.null)])]

/-- C5: a record named `name` of species `species` whose `child_of` list is
`[{value: "restricted access"}, {value: parentRef}]`: the mutual reference
sits at index 1. -/
def c5Org (name species parentRef : String) : JValue :=
  .obj [("organism", .obj [("text", .str species), ("term", .str "NCBITaxon:0")]),
        ("child_of", .list
          [.obj [("value", .str "restricted access")],
           .obj [("value", .str parentRef)]]),
        ("custom", .obj [("sample_name", .obj [("value", .str name)])])]

/-- C6: a species-to-breed-class table with one registered species. -/
def c6Links : String → Option String :=
  fun s => if s = "NCBITaxon:9913" then some "LBO:0000001" else none

/-- C6: a delegate that reports a graph-restriction violation for every
submitted term. -/
def c6Delegate : String → BreedSchema → List ValidationResult :=
  fun _ _ => [{ field_path := "", errors := ["not a descendant"] }]

/-- C9: a record whose `birth_date` is an invalid calendar date matching the
regex shape. -/
def c9OrgBad : JValue :=
  .obj [("birth_date", .obj [("value", .str "2020-02-30"), ("units", .str "YYYY-MM-DD")])]

/-- C9: a record with a valid year-month `birth_date`. -/
def c9OrgGood : JValue :=
  .obj [("birth_date", .obj [("value", .str "2020-02"), ("units", .str "YYYY-MM")])]

/-- C9: the output skeleton carrying the `birth_date` field. -/
def c9Rec : JValue :=
  .obj [("birth_date", .obj [("value", JValue.null), ("units", JValue.null)])]

/-- C10: a lone record whose `child_of` references a nonexistent target. -/
def c10Org : JValue :=
  .obj [("organism", .obj [("text", .str "Bos taurus"), ("term", .str "NCBITaxon:9913")]),
        ("child_of", .list [.obj [("value", .str "GHOST")]]),
        ("custom", .obj [("sample_name", .obj [("value", .str "LONE1")])])]

/-- Shape invariant for `record['child_of'][i]`: the record is a dict whose
`child_of` entry is a list long enough, and the addressed item is a dict
whose `errors` entry is absent or a list.  `_add_error` through
`updateChildOfAt` keeps this invariant. -/
def ChildOk (rec : JValue) (i : Nat) : Prop :=
  (∃ kvs, rec = .obj kvs) ∧
  (∃ items, rec.get? "child_of" = some (.list items) ∧ i < items.length ∧
    (∃ ikvs, items.getD i .null = .obj ikvs) ∧
    ((items.getD i .null).get? "errors" = none ∨
      ∃ l, (items.getD i .null).get? "errors" = some (.list l)))

/-! Helper lemmas. -/

theorem lookupAssoc_setAssoc_self (kvs : List (String × JValue)) (k : String) (v : JValue) :
    lookupAssoc (setAssoc kvs k v) k = some v := by
  induction kvs with
  | nil => simp [setAssoc, lookupAssoc]
  | cons kv rest ih =>
    cases kv with
    | mk k1 v1 =>
      by_cases h : k1 = k
      · simp [setAssoc, h, lookupAssoc]
      · simp [setAssoc, h, lookupAssoc, ih]

theorem get?_set_obj (kvs : List (String × JValue)) (k : String) (v : JValue) :
    (JValue.set (.obj kvs) k v).get? k = some v := by
  simp [JValue.set, JValue.get?, lookupAssoc_setAssoc_self]

/-- The string extraction used by `msgsAt`. -/
theorem strMem_iff (m : String) (l : List JValue) :
    strMem m l = true ↔
      m ∈ l.filterMap (fun v => match v with | .str s => some s | _ => none) := by
  induction l with
  | nil => simp [strMem]
  | cons x rest ih =>
    cases x with
    | str s =>
      simp only [strMem, Bool.or_eq_true, decide_eq_true_eq, List.filterMap_cons,
        List.mem_cons, ih]
      exact or_congr eq_comm Iff.rfl
    | null => simpa [strMem, List.filterMap_cons] using ih
    | list l2 => simpa [strMem, List.filterMap_cons] using ih
    | obj kvs2 => simpa [strMem, List.filterMap_cons] using ih

theorem msgsAt_addMsg_self (j : JValue) (key m : String)
    (hobj : ∃ kvs, j = .obj kvs)
    (hok : j.get? key = none ∨ ∃ l, j.get? key = some (.list l)) :
    m ∈ msgsAt (addMsg key m j) key := by
  obtain ⟨kvs, rfl⟩ := hobj
  simp only [JValue.get?] at hok
  rcases hok with h | ⟨l, h⟩
  · simp [addMsg, h, msgsAt, JValue.get?, JValue.set, lookupAssoc_setAssoc_self]
  · by_cases hm : strMem m l
    · simp only [addMsg, h, hm, if_true]
      have := (strMem_iff m l).mp hm
      simp [msgsAt, JValue.get?, h, this]
    · simp [addMsg, h, hm, msgsAt, JValue.get?, JValue.set, lookupAssoc_setAssoc_self,
        List.filterMap_append]

theorem msgsAt_addMsg_mono (j : JValue) (key m m2 : String)
    (h : m ∈ msgsAt j key) : m ∈ msgsAt (addMsg key m2 j) key := by
  cases j with
  | obj kvs =>
    rcases hl : lookupAssoc kvs key with _ | v
    · simp [msgsAt, JValue.get?, hl] at h
    · cases v with
      | list l =>
        by_cases hm : strMem m2 l
        · simpa [addMsg, hl, hm] using h
        · simp only [msgsAt, JValue.get?, hl] at h
          simp [addMsg, hl, hm, msgsAt, JValue.get?, JValue.set,
            lookupAssoc_setAssoc_self, List.filterMap_append, h]
      | null => simpa [addMsg, hl] using h
      | str s => simpa [addMsg, hl] using h
      | obj kvs2 => simpa [addMsg, hl] using h
  | null => simpa [addMsg] using h
  | str s => simpa [addMsg] using h
  | list l => simpa [addMsg] using h

theorem msgsAt_addMsg_nodup (j : JValue) (key m : String)
    (h : (msgsAt j key).Nodup) : (msgsAt (addMsg key m j) key).Nodup := by
  cases j with
  | obj kvs =>
    rcases hl : lookupAssoc kvs key with _ | v
    · simp [addMsg, hl, msgsAt, JValue.get?, JValue.set, lookupAssoc_setAssoc_self]
    · cases v with
      | list l =>
        by_cases hm : strMem m l
        · simpa [addMsg, hl, hm] using h
        · have hnm : m ∉ l.filterMap (fun v => match v with | .str s => some s | _ => none) := by
            intro hmem
            exact hm ((strMem_iff m l).mpr hmem)
          simp only [msgsAt, JValue.get?, hl] at h
          simp [addMsg, hl, hm, msgsAt, JValue.get?, JValue.set,
            lookupAssoc_setAssoc_self, List.filterMap_append, List.nodup_append, h, hnm]
      | null => simpa [addMsg, hl] using h
      | str s => simpa [addMsg, hl] using h
      | obj kvs2 => simpa [addMsg, hl] using h
  | null => simpa [addMsg] using h
  | str s => simpa [addMsg] using h
  | list l => simpa [addMsg] using h

/-- An uncached term other than `restricted access` always triggers an OLS
request in `validate_ontology_term`. -/
theorem validateOntologyTerm_snd_uncached (ols : String → List OlsDoc)
    (term ontologyName : String) (acls : List String) (text : Option String)
    (h : term ≠ "restricted access") :
    (validateOntologyTerm (fun _ => none) ols term ontologyName acls text).2 = true := by
  unfold validateOntologyTerm
  rw [if_neg h]
  rfl

/-! Claim theorems. -/

/-- C3: counterexample.  A validation call whose external schema validator
reports the same message twice for the same path yields an outcome whose
`errors` list at `organism` holds the message twice: `_apply_errors_to_path`
extends message lists without the duplicate guard of `_add_error`, so the
claimed no-duplicates invariant fails. -/
theorem c3_counterexample :
    fieldErrors (validateSingleOrganism c3Env c3Org c3Rec) "organism"
      = ["bad term", "bad term"] ∧
    ¬ (fieldErrors (validateSingleOrganism c3Env c3Org c3Rec) "organism").Nodup := by
  have h : fieldErrors (validateSingleOrganism c3Env c3Org c3Rec) "organism"
      = ["bad term", "bad term"] := rfl
  refine ⟨h, ?_⟩
  rw [h]
  decide

/-- C3 (amended): messages routed through `_add_error`/`_add_warning` are
never duplicated within the addressed list (the membership guard), so the
locally produced findings respect the invariant; but findings merged through
`_apply_errors_to_path` (external schema-validator and Pydantic errors) are
appended unchecked, so an outcome can repeat a message for a path. -/
theorem c3_amended (j : JValue) (key m : String) (h : (msgsAt j key).Nodup) :
    (msgsAt (addMsg key m j) key).Nodup :=
  msgsAt_addMsg_nodup j key m h

/-- C3: witness for the amended theorem at a concrete outcome dict. -/
theorem c3_witness :
    (msgsAt (.obj [("errors", .list [.str "m1"])]) "errors").Nodup ∧
    (msgsAt (addMsg "errors" "m1" (.obj [("errors", .list [.str "m1"])])) "errors").Nodup :=
  ⟨by decide, c3_amended (.obj [("errors", .list [.str "m1"])]) "errors" "m1" (by decide)⟩

/-- C4: counterexample.  The missing-value sentinel "not provided" does not
bypass `validate_ontology_term`: with an empty cache and an OLS search
returning no documents, an OLS request is made (second component `true`) and
the outcome carries a "not found" error instead of being empty. -/
theorem c4_counterexample :
    (validateOntologyTerm (fun _ => none) (fun _ => []) "not provided" "PATO" [] none).1.errors
      = ["Term not provided not found in OLS"] ∧
    (validateOntologyTerm (fun _ => none) (fun _ => []) "not provided" "PATO" [] none).2
      = true :=
  ⟨rfl, rfl⟩

/-- C4 (amended): only the sentinel "restricted access" short-circuits
`validate_ontology_term` with an empty outcome and no OLS lookup; the other
three missing-value sentinels are processed like ordinary terms and, when
uncached, always trigger an OLS request. -/
theorem c4_amended (cache : String → Option (List OlsDoc)) (ols : String → List OlsDoc)
    (ontologyName : String) (acls : List String) (text : Option String) :
    ((validateOntologyTerm cache ols "restricted access" ontologyName acls text).1.errors = []
      ∧ (validateOntologyTerm cache ols "restricted access" ontologyName acls text).1.warnings = []
      ∧ (validateOntologyTerm cache ols "restricted access" ontologyName acls text).2 = false) ∧
    (∀ term, term ∈ ["not applicable", "not collected", "not provided"] →
      (validateOntologyTerm (fun _ => none) ols term ontologyName acls text).2 = true) := by
  refine ⟨⟨rfl, rfl, rfl⟩, ?_⟩
  intro term ht
  simp only [List.mem_cons, List.mem_singleton, List.not_mem_nil, or_false] at ht
  rcases ht with rfl | rfl | rfl <;>
    exact validateOntologyTerm_snd_uncached ols _ ontologyName acls text (by decide)

/-- C4: witness for the amended theorem. -/
theorem c4_witness :
    "not collected" ∈ ["not applicable", "not collected", "not provided"] ∧
    (validateOntologyTerm (fun _ => none) (fun _ => []) "not collected" "PATO" [] none).2
      = true :=
  ⟨by decide,
    (c4_amended (fun _ => none) (fun _ => []) "PATO" [] none).2 "not collected" (by decide)⟩

/-- C6: counterexample.  The breed term "not provided" is a missing-value
sentinel, yet with a registered species policy and a delegate reporting a
graph-restriction violation the check returns the collapsed error rather
than an empty result: only "not applicable" and "restricted access" are
special-cased. -/
theorem c6_counterexample :
    validateBreedForSpecies c6Links c6Delegate "NCBITaxon:9913" "not provided"
      = [breedMismatchMsg] := rfl

/-- C6 (amended): the breed–species check is a no-op when the species has no
registered breed-restriction policy or the breed term is "not applicable" or
"restricted access" (the other two missing-value sentinels are validated
like ordinary terms); otherwise any non-empty delegate result is collapsed
into exactly the single message `breedMismatchMsg`. -/
theorem c6_amended (links : String → Option String)
    (delegate : String → BreedSchema → List ValidationResult) (ot bt : String) :
    (links ot = none → validateBreedForSpecies links delegate ot bt = []) ∧
    ((bt = "not applicable" ∨ bt = "restricted access") →
      validateBreedForSpecies links delegate ot bt = []) ∧
    (∀ cls, links ot = some cls → bt ≠ "not applicable" → bt ≠ "restricted access" →
      validateBreedForSpecies links delegate ot bt =
        if (delegate bt (breedSchemaFor cls)).isEmpty then [] else [breedMismatchMsg]) := by
  refine ⟨?_, ?_, ?_⟩
  · intro h
    simp [validateBreedForSpecies, h]
  · intro h
    unfold validateBreedForSpecies
    cases hl : links ot with
    | none => rfl
    | some cls => rcases h with rfl | rfl <;> simp
  · intro cls hl h1 h2
    simp only [validateBreedForSpecies, hl, h1, h2]
    by_cases hd : (delegate bt (breedSchemaFor cls)).isEmpty <;> simp [hd]

/-- C6: witness for the amended theorem. -/
theorem c6_witness :
    c6Links "NCBITaxon:9940" = none ∧
    validateBreedForSpecies c6Links c6Delegate "NCBITaxon:9940" "LBO:0000002" = [] :=
  ⟨rfl, (c6_amended c6Links c6Delegate "NCBITaxon:9940" "LBO:0000002").1 rfl⟩

/-- C7: a transport exception from the external schema validator yields an
empty result, a non-success status likewise, no exception reaches the
caller (the functions are total), and a record validated under a failing
Elixir transport gets exactly the outcome of the remaining passes — the same
as when no organism schema is loaded at all. -/
theorem c7_transport_failure_swallowed :
    (∀ e : Unit, validateWithElixir (.error e) = []) ∧
    (∀ (status : Nat) (items : List RawElixirItem), status ≠ 200 →
      validateWithElixir (.ok (status, items)) = []) ∧
    (∀ (env : ValEnv) (org rec : JValue), env.elixirMain org = .error () →
      validateSingleOrganism env org rec =
        validateSingleOrganism { env with organismSchemaPresent := false } org rec) := by
  refine ⟨fun _ => rfl, ?_, ?_⟩
  · intro status items h
    simp [validateWithElixir, h]
  · intro env org rec h
    obtain ⟨p1, p2, p3, p4, p5, p6, p7, p8, p9, p10, p11, p12, p13, p14⟩ := env
    cases p1 with
    | false => rfl
    | true =>
      unfold validateSingleOrganism
      rw [show (ValEnv.mk true p2 p3 p4 p5 p6 p7 p8 p9 p10 p11 p12 p13 p14).elixirMain org
          = Except.error () from h]
      rfl

/-- C7: witness. -/
theorem c7_witness :
    (500 : Nat) ≠ 200 ∧
    validateWithElixir (.ok (500, [{ dataPath := "/x", errors := ["m"] }])) = [] ∧
    envBase.elixirMain (.obj []) = .error () ∧
    validateSingleOrganism envBase (.obj []) (.obj []) =
      validateSingleOrganism { envBase with organismSchemaPresent := false } (.obj []) (.obj []) :=
  ⟨by decide,
    c7_transport_failure_swallowed.2.1 500 [{ dataPath := "/x", errors := ["m"] }] (by decide),
    rfl,
    c7_transport_failure_swallowed.2.2 envBase (.obj []) (.obj []) rfl⟩

/-- C8: normalising the external schema-validator response removes
`oneOfMsg` from every item's message list and drops items whose message list
becomes empty; consequently no returned result mentions `oneOfMsg` or has an
empty message list. -/
theorem c8_oneof_normalisation (items : List RawElixirItem) :
    (processElixirItems items =
      items.filterMap (fun item =>
        if (item.errors.filter (· ≠ oneOfMsg)).isEmpty then none
        else some { field_path := rawItemPath item,
                    errors := item.errors.filter (· ≠ oneOfMsg) })) ∧
    (∀ r, r ∈ processElixirItems items → oneOfMsg ∉ r.errors ∧ r.errors ≠ []) := by
  have h1 : processElixirItems items =
      items.filterMap (fun item =>
        if (item.errors.filter (· ≠ oneOfMsg)).isEmpty then none
        else some { field_path := rawItemPath item,
                    errors := item.errors.filter (· ≠ oneOfMsg) }) := by
    induction items with
    | nil => rfl
    | cons item rest ih =>
      have step : processElixirItems (item :: rest) =
          (if !item.errors.isEmpty then
            (if !(item.errors.filter (· ≠ oneOfMsg)).isEmpty then
              [{ field_path := rawItemPath item,
                 errors := item.errors.filter (· ≠ oneOfMsg) }]
            else []) else []) ++ processElixirItems rest := rfl
      rw [step, ih]
      simp only [List.filterMap_cons]
      cases herrs : item.errors with
      | nil => rfl
      | cons e es =>
        cases hf : ((e :: es).filter (· ≠ oneOfMsg)).isEmpty with
        | true => rfl
        | false => rfl
  refine ⟨h1, ?_⟩
  intro r hr
  rw [h1] at hr
  obtain ⟨item, _, hf⟩ := List.mem_filterMap.mp hr
  by_cases hempty : (item.errors.filter (· ≠ oneOfMsg)).isEmpty
  · rw [if_pos hempty] at hf
    exact Option.noConfusion hf
  · rw [if_neg hempty] at hf
    obtain rfl := Option.some_injective _ hf
    constructor
    · simp
    · intro hnil
      rw [List.isEmpty_iff] at hempty
      exact hempty hnil

/-- C8: witness at a concrete response. -/
theorem c8_witness :
    ({ field_path := "/x", errors := ["m"] } : ValidationResult) ∈
      processElixirItems [{ dataPath := "/x", errors := [oneOfMsg, "m"] }] ∧
    oneOfMsg ∉ (({ field_path := "/x", errors := ["m"] } : ValidationResult)).errors ∧
    (({ field_path := "/x", errors := ["m"] } : ValidationResult)).errors ≠ [] := by
  have hmem : ({ field_path := "/x", errors := ["m"] } : ValidationResult) ∈
      processElixirItems [{ dataPath := "/x", errors := [oneOfMsg, "m"] }] := by
    have : processElixirItems [{ dataPath := "/x", errors := [oneOfMsg, "m"] }]
        = [{ field_path := "/x", errors := ["m"] }] := by decide
    rw [this]
    exact List.mem_singleton_self _
  exact ⟨hmem,
    ((c8_oneof_normalisation [{ dataPath := "/x", errors := [oneOfMsg, "m"] }]).2 _ hmem).1,
    ((c8_oneof_normalisation [{ dataPath := "/x", errors := [oneOfMsg, "m"] }]).2 _ hmem).2⟩

/-- C9: the date/units consistency check rejects `2020-02-30` against
`YYYY-MM-DD` (an invalid calendar date that matches the regex shape) and
attaches the consistency error at the date field; `2020-02` against
`YYYY-MM` passes with the outcome untouched; and any missing-value sentinel
value always passes regardless of the units. -/
theorem c9_date_units :
    isDateFormatValid "2020-02-30" "YYYY-MM-DD" = false ∧
    fieldErrors (validateAllDates c9OrgBad c9Rec) "birth_date"
      = ["Date units: YYYY-MM-DD should be consistent with date value: 2020-02-30"] ∧
    isDateFormatValid "2020-02" "YYYY-MM" = true ∧
    validateAllDates c9OrgGood c9Rec = c9Rec ∧
    (∀ units v, v ∈ missingValueSentinels → isDateFormatValid v units = true) := by
  refine ⟨rfl, rfl, rfl, rfl, ?_⟩
  intro units v hv
  unfold isDateFormatValid
  rw [if_pos hv]

/-- C9: witness for the sentinel conjunct. -/
theorem c9_witness :
    "not provided" ∈ missingValueSentinels ∧
    isDateFormatValid "not provided" "YYYY-MM-DD" = true :=
  ⟨by decide, c9_date_units.2.2.2.2 "YYYY-MM-DD" "not provided" (by decide)⟩

/-- C2: the claimed iff between the returned status and the presence of a
non-empty errors list fails on a reachable input, against the code's own
embedded marker: an update batch whose record carries no valid BioSample ID
yields a document with a non-empty `errors` list (and an inner
`submission_status` of "Fix issues"), yet `get_submission_status` — whose
`has_issues` never inspects a record-level list of bare strings — returns
"Ready for submission". -/
theorem c2_status_divergence :
    validateBatch envBase c2Json (.obj []) "update" = c2Doc ∧
    containsNonemptyErrors c2Doc = true ∧
    getSubmissionStatus c2Doc = "Ready for submission" ∧
    (validateOrganismsForDjango envBase c2Json (.obj []) "update").2
      = "Ready for submission" := by
  have h1 : validateBatch envBase c2Json (.obj []) "update" = c2Doc := rfl
  have h2 : containsNonemptyErrors c2Doc = true := by
    simp [c2Doc, containsNonemptyErrors, containsNonemptyErrorsAssoc,
      containsNonemptyErrorsList]
  have h3 : getSubmissionStatus c2Doc = "Ready for submission" := by
    simp [c2Doc, getSubmissionStatus, hasIssues, hasIssuesList, itemHasErrors,
      nestedKeys, lookupAssoc, JValue.truthy]
  refine ⟨h1, h2, h3, ?_⟩
  show getSubmissionStatus (validateBatch envBase c2Json (.obj []) "update")
      = "Ready for submission"
  rw [h1]
  exact h3

/-- C10: `validate_batch` performs the relationship pass only for batches
with more than one record: a singleton batch's document is exactly the
first-pass output, and a lone record referencing a nonexistent `child_of`
target comes back with no errors at the reference (no "no entity found"). -/
theorem c10_singleton_batch (env : ValEnv) (stru org : JValue) :
    (validateBatch env (.obj [("organism", .list [org])]) stru "new" =
      .obj [("organism", .list [validateSingleOrganism env org
        (getRecordStructure (stru.getD "organism" (.obj [])) org)])]) ∧
    validateBatch envBase (.obj [("organism", .list [c10Org])]) orgStruDef "new" =
      .obj [("organism", .list [.obj
        [("organism", .obj [("text", .str "Bos taurus"), ("term", .str "NCBITaxon:9913")]),
         ("child_of", .list [.obj [("value", .str "GHOST")]])]])] ∧
    childOfErrorsAt (validateBatch envBase (.obj [("organism", .list [c10Org])])
      orgStruDef "new") 0 0 = [] := by
  refine ⟨rfl, rfl, rfl⟩

/-- C1: counterexample.  A record that fails structural (Pydantic)
validation still has relationship checks run for it in the second pass (its
child_of reference to a nonexistent target receives the "no entity found"
error), and the external schema validator is still consulted for it (its
findings appear in the record's outcome) — both contradicting the claim
that no such checks or collaborator calls happen for that record. -/
theorem c1_counterexample :
    pydanticValidate c1OrgA ≠ [] ∧
    noEntityMsg "GHOST" ∈ childOfErrorsAt (validateBatch envBase c1Json orgStruDef "new") 0 0 ∧
    fieldErrors (validateSingleOrganism c1EnvElixir c1OrgA
      (getRecordStructure (orgStruDef.getD "organism" (.obj [])) c1OrgA)) "organism"
      = ["elixir finding"] := by
  refine ⟨by decide, ?_, rfl⟩
  have h : childOfErrorsAt (validateBatch envBase c1Json orgStruDef "new") 0 0
      = [noEntityMsg "GHOST"] := rfl
  rw [h]
  exact List.mem_singleton_self _

/-- C1 (amended): a structural (Pydantic) failure short-circuits exactly the
post-structural per-record checks — the record's outcome then depends only on
the Elixir schema pass and the structural errors, not on the ontology cache,
requirement tiers, breed policy or any other configuration — while the
external schema-validator call still happens for the record and the
relationship pass still processes it when the batch has more than one record
(other records are validated normally). -/
theorem c1_structural_shortcircuit (e1 e2 : ValEnv) (org rec : JValue)
    (hfail : pydanticValidate org ≠ [])
    (hp : e1.organismSchemaPresent = e2.organismSchemaPresent)
    (he : e1.elixirMain org = e2.elixirMain org) :
    validateSingleOrganism e1 org rec = validateSingleOrganism e2 org rec := by
  unfold validateSingleOrganism
  rw [hp, he]
  cases hpv : pydanticValidate org with
  | nil => exact absurd hpv hfail
  | cons a l => simp [hpv]

/-- C1: witness — two environments that differ in every ontology/requirement
component but agree on the Elixir components give the same outcome for a
structurally failing record. -/
theorem c1_witness :
    pydanticValidate c1OrgA ≠ [] ∧
    validateSingleOrganism envBase c1OrgA (.obj []) =
      validateSingleOrganism c1EnvAlt c1OrgA (.obj []) :=
  ⟨by decide, c1_structural_shortcircuit envBase c1EnvAlt c1OrgA (.obj []) (by decide) rfl rfl⟩

/-! Lemmas tracking error membership through the relationship pass. -/

/-- `addMsg` on a dict whose `key` entry is absent or a list yields a dict
whose `key` entry is a list. -/
theorem addMsg_shape (ikvs : List (String × JValue)) (key m : String)
    (herr : lookupAssoc ikvs key = none ∨ ∃ l, lookupAssoc ikvs key = some (.list l)) :
    (∃ ikvs2, addMsg key m (.obj ikvs) = .obj ikvs2) ∧
    (∃ l2, (addMsg key m (.obj ikvs)).get? key = some (.list l2)) := by
  rcases herr with h | ⟨l, h⟩
  · refine ⟨⟨setAssoc ikvs key (.list [.str m]), ?_⟩, ⟨[.str m], ?_⟩⟩
    · simp [addMsg, h, JValue.set]
    · simp [addMsg, h, JValue.set, JValue.get?, lookupAssoc_setAssoc_self]
  · by_cases hm : strMem m l
    · exact ⟨⟨ikvs, by simp [addMsg, h, hm]⟩, ⟨l, by simp [addMsg, h, hm, JValue.get?]⟩⟩
    · refine ⟨⟨setAssoc ikvs key (.list (l ++ [.str m])), ?_⟩, ⟨l ++ [.str m], ?_⟩⟩
      · simp [addMsg, h, hm, JValue.set]
      · simp [addMsg, h, hm, JValue.set, JValue.get?, lookupAssoc_setAssoc_self]

theorem updateChildOfAt_eq (kvs : List (String × JValue)) (items : List JValue) (i : Nat)
    (f : JValue → JValue) (hco : lookupAssoc kvs "child_of" = some (.list items))
    (hlen : i < items.length) :
    updateChildOfAt (.obj kvs) i f =
      .obj (setAssoc kvs "child_of" (.list (items.set i (f (items.get ⟨i, hlen⟩))))) := by
  unfold updateChildOfAt JValue.updateField
  simp [JValue.get?, hco, JValue.set, dif_pos hlen]

theorem getD_set_self (items : List JValue) (i : Nat) (x : JValue) (hlen : i < items.length) :
    (items.set i x).getD i .null = x := by
  rw [List.getD_eq_getElem?_getD, List.getElem?_set_self', List.getElem?_eq_getElem hlen]
  rfl

theorem get_eq_getD (items : List JValue) (i : Nat) (hlen : i < items.length) :
    items.get ⟨i, hlen⟩ = items.getD i .null := by
  rw [List.getD_eq_getElem?_getD, List.getElem?_eq_getElem hlen]
  rfl

theorem childItem_update (kvs : List (String × JValue)) (items : List JValue) (i : Nat)
    (f : JValue → JValue) (hco : lookupAssoc kvs "child_of" = some (.list items))
    (hlen : i < items.length) :
    childItem (updateChildOfAt (.obj kvs) i f) i = f (items.getD i .null) := by
  rw [updateChildOfAt_eq kvs items i f hco hlen]
  unfold childItem
  simp only [JValue.get?, lookupAssoc_setAssoc_self]
  rw [getD_set_self _ _ _ (by simpa using hlen), get_eq_getD]

theorem updAt_mem_self (r : JValue) (i : Nat) (m : String) (h : ChildOk r i) :
    m ∈ recChildOfErrors (updateChildOfAt r i (fun fd => addError fd m)) i := by
  obtain ⟨⟨kvs, rfl⟩, items, hco, hlen, ⟨ikvs, hitem⟩, herr⟩ := h
  have hco2 : lookupAssoc kvs "child_of" = some (.list items) := by
    simpa [JValue.get?] using hco
  rw [recChildOfErrors, childItem_update kvs items i _ hco2 hlen, hitem]
  rw [hitem] at herr
  exact msgsAt_addMsg_self _ "errors" m ⟨ikvs, rfl⟩ herr

theorem updAt_mem_mono (r : JValue) (i : Nat) (m m2 : String)
    (h : m ∈ recChildOfErrors r i) :
    m ∈ recChildOfErrors (updateChildOfAt r i (fun fd => addError fd m2)) i := by
  cases r with
  | obj kvs =>
    rcases hco : lookupAssoc kvs "child_of" with _ | co
    · simpa [updateChildOfAt, JValue.updateField, JValue.get?, hco] using h
    · cases co with
      | list items =>
        by_cases hlen : i < items.length
        · rw [recChildOfErrors, childItem_update kvs items i _ hco hlen]
          rw [recChildOfErrors, childItem, JValue.get?, hco] at h
          exact msgsAt_addMsg_mono _ "errors" m m2 h
        · have hsame : updateChildOfAt (.obj kvs) i (fun fd => addError fd m2)
              = JValue.set (.obj kvs) "child_of" (.list items) := by
            unfold updateChildOfAt JValue.updateField
            simp [JValue.get?, hco, dif_neg hlen]
          rw [hsame]
          rw [recChildOfErrors, childItem, JValue.get?, hco] at h
          rw [recChildOfErrors, childItem]
          simpa [JValue.set, JValue.get?, lookupAssoc_setAssoc_self] using h
      | null =>
        rw [recChildOfErrors, childItem, JValue.get?, hco] at h
        simp [msgsAt, JValue.get?] at h
      | str s =>
        rw [recChildOfErrors, childItem, JValue.get?, hco] at h
        simp [msgsAt, JValue.get?] at h
      | obj kvs2 =>
        rw [recChildOfErrors, childItem, JValue.get?, hco] at h
        simp [msgsAt, JValue.get?] at h
  | null => simpa [updateChildOfAt, JValue.updateField, JValue.get?] using h
  | str s => simpa [updateChildOfAt, JValue.updateField, JValue.get?] using h
  | list l => simpa [updateChildOfAt, JValue.updateField, JValue.get?] using h

theorem updAt_childOk (r : JValue) (i : Nat) (m : String) (h : ChildOk r i) :
    ChildOk (updateChildOfAt r i (fun fd => addError fd m)) i := by
  obtain ⟨⟨kvs, rfl⟩, items, hco, hlen, ⟨ikvs, hitem⟩, herr⟩ := h
  have hco2 : lookupAssoc kvs "child_of" = some (.list items) := by
    simpa [JValue.get?] using hco
  rw [updateChildOfAt_eq kvs items i _ hco2 hlen]
  have hget2 : items.get ⟨i, hlen⟩ = .obj ikvs := by rw [get_eq_getD, hitem]
  rw [hitem] at herr
  have herr2 : lookupAssoc ikvs "errors" = none ∨
      ∃ l, lookupAssoc ikvs "errors" = some (.list l) := by
    simpa [JValue.get?] using herr
  obtain ⟨⟨ikvs2, hshape⟩, ⟨l2, hlist⟩⟩ := addMsg_shape ikvs "errors" m herr2
  refine ⟨⟨_, rfl⟩, items.set i (addError (items.get ⟨i, hlen⟩) m), ?_, ?_, ?_, ?_⟩
  · simp [JValue.get?, lookupAssoc_setAssoc_self]
  · simpa using hlen
  · rw [getD_set_self _ _ _ (by simpa using hlen), hget2]
    exact ⟨ikvs2, hshape⟩
  · rw [getD_set_self _ _ _ (by simpa using hlen), hget2]
    exact Or.inr ⟨l2, hlist⟩

theorem cycle_fold_mono (l : List JValue) (name msg : String) (i : Nat) (r : JValue)
    (m : String) (h : m ∈ recChildOfErrors r i) :
    m ∈ recChildOfErrors
      (l.foldl (fun r gp =>
        if gpValueIs gp name then
          updateChildOfAt r i (fun fd => addError fd msg)
        else r) r) i := by
  induction l generalizing r with
  | nil => exact h
  | cons gp rest ih =>
    rw [List.foldl_cons]
    by_cases hv : gpValueIs gp name = true
    · rw [if_pos hv]
      exact ih _ (updAt_mem_mono _ _ _ _ h)
    · rw [if_neg hv]
      exact ih _ h

theorem cycle_fold_mem (l : List JValue) (name pid : String) (i : Nat) (r : JValue)
    (hok : ChildOk r i) (hgp : ∃ gp ∈ l, gpValueIs gp name = true) :
    cycleMsg pid ∈ recChildOfErrors
      (l.foldl (fun r gp =>
        if gpValueIs gp name then
          updateChildOfAt r i (fun fd => addError fd (cycleMsg pid))
        else r) r) i := by
  induction l generalizing r with
  | nil =>
    obtain ⟨gp, hmem, _⟩ := hgp
    cases hmem
  | cons gp rest ih =>
    obtain ⟨gp0, hmem, hval⟩ := hgp
    rw [List.foldl_cons]
    rcases List.mem_cons.mp hmem with rfl | htail
    · rw [if_pos hval]
      exact cycle_fold_mono rest name (cycleMsg pid) i _ (cycleMsg pid)
        (updAt_mem_self _ _ _ hok)
    · by_cases hv : gpValueIs gp name = true
      · rw [if_pos hv]
        exact ih _ (updAt_childOk _ _ _ hok) ⟨gp0, htail, hval⟩
      · rw [if_neg hv]
        exact ih _ hok ⟨gp0, htail, hval⟩

/-- A reference to a locally resolvable parent whose own `child_of` points
back at the current record always records the mutual-parent error at the
reference's index. -/
theorem processParentRef_cycle_mem (env : ValEnv) (orgs : List JValue)
    (omap : List (String × Nat)) (name : String) (org : JValue)
    (refs : List JValue) (i : Nat) (ref : JValue) (rec : JValue)
    (pid : String) (pidx : Nat)
    (hpid : refValue ref = pid)
    (hnr : pid ≠ "restricted access")
    (hfind : dictFind omap pid = some pidx)
    (hok : ChildOk (ensureChildOf rec refs.length) i)
    (hgp : ∃ gp ∈ childOfRaw (orgs.getD pidx .null), gpValueIs gp name = true) :
    cycleMsg pid ∈ recChildOfErrors
      (processParentRef env orgs omap name org refs i ref rec) i := by
  simp only [processParentRef, hpid, hfind]
  rw [if_neg hnr]
  simp only [Option.isNone_some, Bool.false_and, Bool.false_eq_true, if_false]
  apply cycle_fold_mem _ _ _ _ _ _ hgp
  split
  · apply updAt_childOk
    split
    · exact updAt_childOk _ _ _ hok
    · exact hok
  · split
    · exact updAt_childOk _ _ _ hok
    · exact hok

/-- C5: two records that each declare a `child_of` reference to the other's
identifier both receive the mutual-parent error
`Relationships part: parent '{target}' is listing the child as its parent`,
attached at the specific index of the reference inside the `child_of` list
(index 1 here: the reference follows a skipped "restricted access" entry),
for any species pair and environment. -/
theorem c5_mutual_cycle (env : ValEnv) (nA nB sA sB : String)
    (hne : nA ≠ nB) (hA : nA ≠ "restricted access") (hB : nB ≠ "restricted access") :
    cycleMsg nB ∈ recChildOfErrors
      ((validateRelationshipsBatch env [c5Org nA sA nB, c5Org nB sB nA]
        [.obj [], .obj []] "new").getD 0 .null) 1 ∧
    cycleMsg nA ∈ recChildOfErrors
      ((validateRelationshipsBatch env [c5Org nA sA nB, c5Org nB sB nA]
        [.obj [], .obj []] "new").getD 1 .null) 1 := by
  have hmap : buildOrganismMap [c5Org nA sA nB, c5Org nB sB nA] "new"
      = [(nA, 0), (nB, 1)] := by
    show dictInsert (dictInsert [] nA 0) nB 1 = [(nA, 0), (nB, 1)]
    rw [show dictInsert ([] : List (String × Nat)) nA 0 = [(nA, 0)] from rfl]
    have hc : (((nA, 0) :: ([] : List (String × Nat))).any (fun p => p.1 = nB)) = false := by
      simp [hne]
    unfold dictInsert
    rw [hc]
    simp
  have hfindB : dictFind [(nA, 0), (nB, 1)] nB = some 1 := by
    show (if nA = nB then some 0 else dictFind [(nB, 1)] nB) = some 1
    rw [if_neg hne]
    show (if nB = nB then some 1 else dictFind [] nB) = some 1
    rw [if_pos rfl]
  have hfindA : dictFind [(nA, 0), (nB, 1)] nA = some 0 := by
    show (if nA = nA then some 0 else dictFind [(nB, 1)] nA) = some 0
    rw [if_pos rfl]
  have hok : ChildOk (ensureChildOf (.obj []) (childOfRaw (c5Org nA sA nB)).length) 1 :=
    ⟨⟨_, rfl⟩, [.obj [("value", JValue.null)], .obj [("value", JValue.null)]],
      rfl, by norm_num, ⟨[("value", JValue.null)], rfl⟩, Or.inl rfl⟩
  have hok2 : ChildOk (ensureChildOf (.obj []) (childOfRaw (c5Org nB sB nA)).length) 1 :=
    ⟨⟨_, rfl⟩, [.obj [("value", JValue.null)], .obj [("value", JValue.null)]],
      rfl, by norm_num, ⟨[("value", JValue.null)], rfl⟩, Or.inl rfl⟩
  constructor
  · have hred : (validateRelationshipsBatch env [c5Org nA sA nB, c5Org nB sB nA]
        [.obj [], .obj []] "new").getD 0 .null
        = processParentRef env [c5Org nA sA nB, c5Org nB sB nA] [(nA, 0), (nB, 1)] nA
            (c5Org nA sA nB) (childOfRaw (c5Org nA sA nB)) 1
            (.obj [("value", .str nB)]) (.obj []) := by
      unfold validateRelationshipsBatch
      rw [hmap]
      rfl
    rw [hred]
    refine processParentRef_cycle_mem env _ _ nA _ _ 1 _ _ nB 1 rfl hB hfindB hok ?_
    refine ⟨.obj [("value", .str nA)], ?_, ?_⟩
    · show (JValue.obj [("value", .str nA)]) ∈
        [JValue.obj [("value", .str "restricted access")], .obj [("value", .str nA)]]
      simp
    · show gpValueIs (.obj [("value", .str nA)]) nA = true
      simp [gpValueIs, JValue.get?, lookupAssoc]
  · have hred : (validateRelationshipsBatch env [c5Org nA sA nB, c5Org nB sB nA]
        [.obj [], .obj []] "new").getD 1 .null
        = processParentRef env [c5Org nA sA nB, c5Org nB sB nA] [(nA, 0), (nB, 1)] nB
            (c5Org nB sB nA) (childOfRaw (c5Org nB sB nA)) 1
            (.obj [("value", .str nA)]) (.obj []) := by
      unfold validateRelationshipsBatch
      rw [hmap]
      rfl
    rw [hred]
    refine processParentRef_cycle_mem env _ _ nB _ _ 1 _ _ nA 0 rfl hA hfindA hok2 ?_
    refine ⟨.obj [("value", .str nB)], ?_, ?_⟩
    · show (JValue.obj [("value", .str nB)]) ∈
        [JValue.obj [("value", .str "restricted access")], .obj [("value", .str nB)]]
      simp
    · show gpValueIs (.obj [("value", .str nB)]) nB = true
      simp [gpValueIs, JValue.get?, lookupAssoc]

/-- C5: witness at concrete names and species. -/
theorem c5_witness :
    ("ORG_A" : String) ≠ "ORG_B" ∧
    cycleMsg "ORG_B" ∈ recChildOfErrors
      ((validateRelationshipsBatch envBase
        [c5Org "ORG_A" "Bos taurus" "ORG_B", c5Org "ORG_B" "Bos taurus" "ORG_A"]
        [.obj [], .obj []] "new").getD 0 .null) 1 ∧
    cycleMsg "ORG_A" ∈ recChildOfErrors
      ((validateRelationshipsBatch envBase
        [c5Org "ORG_A" "Bos taurus" "ORG_B", c5Org "ORG_B" "Bos taurus" "ORG_A"]
        [.obj [], .obj []] "new").getD 1 .null) 1 :=
  ⟨by decide,
    (c5_mutual_cycle envBase "ORG_A" "ORG_B" "Bos taurus" "Bos taurus"
      (by decide) (by decide) (by decide)).1,
    (c5_mutual_cycle envBase "ORG_A" "ORG_B" "Bos taurus" "Bos taurus"
      (by decide) (by decide) (by decide)).2⟩

end FaangVal
